import Mathlib

/-!
Shallow embedding of the multi-strategy entity-resolution search of
`get_vessel_personnel_info` (src/src/tools.ts) and its `fleetVesselLookup`
variants (src/unnamed/part_018, src/unnamed/part_019).  The three variants
share the query-construction, two-phase resolution and formatting logic
verbatim; they differ only in the exact-phase page size (250 vs 50), which
is a parameter of `runLookup` below.

JavaScript machine details are embedded explicitly: `parseInt(q, 10)` is
`jsParseInt` (leading whitespace, optional sign, longest digit prefix,
`NaN` when no digit is found; numbers are modelled as `Int`, exact for the
integral values the tool works with); JavaScript truthiness of a document
field value is `JsValue.truthy`.
-/

set_option maxRecDepth 4096

set_option autoImplicit false

namespace MCPUtil

/-- The three logical query types of `activeQueries` (object keys
`"name"`, `"vessel"`, `"email"` in the source, entered in this order). -/
inductive QType where
  | name
  | vessel
  | email
  deriving DecidableEq, Repr

/-- The tool's argument object: up to three optional string slots.
`none` stands for a JavaScript `undefined` or `null` slot (both are
filtered out by the source's `value !== undefined && value !== null`). -/
structure GetVesselPersonnelInfoRequest where
  name_query : Option String
  vessel_query : Option String
  email_query : Option String
  deriving DecidableEq, Repr

/-- Source `activeQueries`: the provided slots in `Object.entries` insertion
order (name, vessel, email), keeping every slot that is not
undefined/null — including the empty string. -/
def activeQueries (args : GetVesselPersonnelInfoRequest) : List (QType × String) :=
  [(QType.name, args.name_query), (QType.vessel, args.vessel_query),
   (QType.email, args.email_query)].filterMap
    (fun p => p.2.map (fun s => (p.1, s)))

/-- Field list `vesselInfoFields` of the source. -/
def vesselInfoFields : List String :=
  ["vesselName", "groupName", "shippalmDoc", "isV3", "class", "imo", "doc", "fleet"]

/-- Field list `emailFields` of the source. -/
def emailFields : List String :=
  ["vesselEmailId", "technicalSuperintendentEmailId", "procurementExecEmailId",
   "marineSuperintendentEmailId", "vgEmailId", "technicalExecutiveEmailId",
   "dcoExecEmailId", "pmsExecEmailId", "accountsPicEmailId",
   "backupTechSuperintendentEmailId", "cmsSuperintendentEmailId",
   "fleetManagerEmailId", "marineManagerEmailId", "itPicEmailId",
   "manningGroupHeadEmailId", "marineExecEmailId"]

/-- Field list `personNameFields` of the source. -/
def personNameFields : List String :=
  ["technicalSuperintendent", "procurementExec", "owner", "marineSuperintendent",
   "technicalExecutive", "dcoExec", "pmsExec", "fleetManager", "accountsPic",
   "backupTechSuperintendent", "cmsSuperintendent", "itPic", "manningGroupHead",
   "marineExec", "marineManager"]

/-- The `searchFields` selected for a query type in the phase-1 loop. -/
def searchFieldsFor : QType → List String
  | QType.email => emailFields
  | QType.name => personNameFields
  | QType.vessel => vesselInfoFields

/-- Source `const numericFields = ['imo']`. -/
def numericFields : List String := ["imo"]

/-- Source `const boolFields = ['isV3']`. -/
def boolFields : List String := ["isV3"]

/-- Source `stringFields`: the search fields that are neither numeric nor boolean. -/
def stringFieldsFor (t : QType) : List String :=
  (searchFieldsFor t).filter (fun f => !(numericFields.contains f) && !(boolFields.contains f))

/-- Decimal value of a digit list (most significant first). -/
def digitsVal (ds : List Char) : Nat :=
  ds.foldl (fun acc c => acc * 10 + (c.toNat - Char.toNat '0')) 0

/-- Longest leading digit run, `none` when it is empty (`parseInt`
returns `NaN` in that case). -/
def parseDigits (cs : List Char) : Option Nat :=
  let ds := cs.takeWhile Char.isDigit
  if ds.isEmpty then none else some (digitsVal ds)

/-- The whitespace characters `parseInt` skips. -/
def jsWhitespace (c : Char) : Bool :=
  c = ' ' || c = '\t' || c = '\n' || c = '\r'

/-- An ASCII `toLowerCase`, written over the character list so that it
evaluates by kernel reduction. -/
def jsToLower (s : String) : String :=
  String.mk (s.data.map Char.toLower)

/-- JavaScript `parseInt(s, 10)`: skip leading whitespace, optional sign, then the
longest digit prefix; `none` models `NaN`. -/
def jsParseInt (s : String) : Option Int :=
  let cs := s.data.dropWhile jsWhitespace
  if cs.head? = some '-' then (parseDigits cs.tail).map (fun n => -(n : Int))
  else if cs.head? = some '+' then (parseDigits cs.tail).map (fun n => (n : Int))
  else (parseDigits cs).map (fun n => (n : Int))

/-- The `filterParts` list built for one `(queryType, query)` entry of
`activeQueries`: numeric coercion clauses, then boolean coercion clauses
(both skipped for `email`), then one string-equality clause per string
field, embedding the query between backticks. -/
def buildFilterParts (t : QType) (q : String) : List String :=
  let searchFields := searchFieldsFor t
  let numericParts : List String :=
    if t ≠ QType.email then
      match jsParseInt q with
      | some n => numericFields.filterMap
          (fun f => if searchFields.contains f then some (f ++ ":=" ++ toString n) else none)
      | none => []
    else []
  let boolParts : List String :=
    if t ≠ QType.email && (jsToLower q == "true" || jsToLower q == "false") then
      boolFields.filterMap
        (fun f => if searchFields.contains f then some (f ++ ":=" ++ jsToLower q) else none)
    else []
  let stringParts : List String :=
    (stringFieldsFor t).map (fun f => f ++ ":=`" ++ q ++ "`")
  numericParts ++ boolParts ++ stringParts

/-- Source `combinedFilterParts`: one parenthesized ` || `-join per active entry
whose part list is non-empty. -/
def combinedFilterParts (active : List (QType × String)) : List String :=
  active.filterMap (fun p =>
    let parts := buildFilterParts p.1 p.2
    if parts.isEmpty then none
    else some ("(" ++ String.intercalate " || " parts ++ ")"))

/-- Source `filterQuery`: the phase-1 filter expression, groups joined with ` && `. -/
def filterQuery (active : List (QType × String)) : String :=
  String.intercalate " && " (combinedFilterParts active)

/-- Source `fuzzyQ`: all active query strings joined by single spaces. -/
def fuzzyQ (active : List (QType × String)) : String :=
  String.intercalate " " (active.map Prod.snd)

/-- Value of `activeQueries[t]` (at most one entry per type exists). -/
def lookupActive (active : List (QType × String)) (t : QType) : Option String :=
  (active.find? (fun p => p.1 = t)).map Prod.snd

/-- JavaScript truthiness of `activeQueries.name` / `.vessel` / `.email`:
present and not the empty string. -/
def activeTruthy (active : List (QType × String)) (t : QType) : Bool :=
  match lookupActive active t with
  | some s => s ≠ ""
  | none => false

/-- Insertion-order deduplication, the iteration order of a JavaScript
`Set` filled by successive `add` calls. -/
def insertDedup (l : List String) : List String :=
  l.foldl (fun acc f => if acc.contains f then acc else acc ++ [f]) []

/-- Source `fuzzyQueryByFields`: field groups of the truthy active slots, in
name/vessel/email order, deduplicated in insertion order. -/
def fuzzyQueryByFields (active : List (QType × String)) : List String :=
  insertDedup
    ((if activeTruthy active QType.name then personNameFields else []) ++
     (if activeTruthy active QType.vessel then vesselInfoFields else []) ++
     (if activeTruthy active QType.email then emailFields else []))

/-- Source `fuzzyStringFields`: the fuzzy scope with numeric/boolean fields removed. -/
def fuzzyStringFields (active : List (QType × String)) : List String :=
  (fuzzyQueryByFields active).filter
    (fun f => !(numericFields.contains f) && !(boolFields.contains f))

/-- A JavaScript value of a hit document's field, as the formatter sees
it: string, integral number, boolean, array of strings, or null. An
absent field is simply missing from the entry list. -/
inductive JsValue where
  | str (s : String)
  | num (n : Int)
  | bool (b : Bool)
  | arr (xs : List String)
  | nullv
  deriving DecidableEq, Repr

/-- JavaScript truthiness, the formatter's `if (value)` test: `""`, `0`,
`false` and `null` are falsy; every array (even empty) is truthy. -/
def JsValue.truthy : JsValue → Bool
  | JsValue.str s => s ≠ ""
  | JsValue.num n => n ≠ 0
  | JsValue.bool b => b
  | JsValue.arr _ => true
  | JsValue.nullv => false

/-- A hit document: its fields in `Object.entries` order. -/
abbrev Record : Type := List (String × JsValue)

/-- Field lookup in a document. -/
def Record.get (r : Record) (f : String) : Option JsValue :=
  (r.find? (fun p => p.1 = f)).map Prod.snd

/-- Step `key.replace(/([A-Z])/g, ' $1')`: a space inserted before every
ASCII capital. -/
def insertSpacesBeforeCaps : List Char → List Char
  | [] => []
  | c :: cs =>
      (if c.isUpper then [' ', c] else [c]) ++ insertSpacesBeforeCaps cs

/-- Step `.replace(/^./, str => str.toUpperCase())`: first character upper-cased. -/
def capitalizeFirst : List Char → List Char
  | [] => []
  | c :: cs => c.toUpper :: cs

/-- Source `displayKey` of the formatter. -/
def displayKey (k : String) : String :=
  String.mk (capitalizeFirst (insertSpacesBeforeCaps k.data))

/-- Source `displayValue`: arrays joined with a comma and a space, everything
else via JavaScript string coercion. -/
def displayValue : JsValue → String
  | JsValue.arr xs => String.intercalate ", " xs
  | JsValue.str s => s
  | JsValue.num n => toString n
  | JsValue.bool b => if b then "true" else "false"
  | JsValue.nullv => "null"

/-- Concatenation of a list of strings (structural, for the formatter's
accumulated `responseText +=`). -/
def strConcat (l : List String) : String :=
  l.foldr (fun a b => a ++ b) ""

/-- The field loop of the formatter: one `Key: value` line appended per
truthy field, falsy fields skipped. -/
def recordLines (doc : Record) : String :=
  doc.foldl
    (fun acc p =>
      if p.2.truthy then acc ++ displayKey p.1 ++ ": " ++ displayValue p.2 ++ "\n"
      else acc)
    ""

/-- One `--- Result i ---` block of the report (`i` is the 0-based index). -/
def formatRecord (i : Nat) (doc : Record) : String :=
  "--- Result " ++ toString (i + 1) ++ " ---\n" ++ recordLines doc ++ "\n"

/-- The full report: header with total found vs shown, then one block
per hit. -/
def formatHits (found : Nat) (hits : List Record) : String :=
  "Found " ++ toString found ++ " results. Showing top " ++ toString hits.length ++
    ":\n\n" ++ strConcat (hits.mapIdx formatRecord)

/-- A Typesense `documents().search(...)` parameter object; `filter_by`
and `query_by` are `none` when the source omits them. -/
structure SearchParameters where
  q : String
  filter_by : Option String
  query_by : Option String
  per_page : Nat
  deriving DecidableEq, Repr

/-- A search response envelope: total found count and the hit documents
(`searchResults.hits || []` is already folded into `hits`). -/
structure SearchResponse where
  found : Nat
  hits : List Record
  deriving DecidableEq, Repr

/-- Source `config.typesense`: each connection parameter as an optional string
(the source only ever tests their JavaScript truthiness). -/
structure TypesenseConfig where
  host : Option String
  port : Option String
  protocol : Option String
  apiKey : Option String
  deriving DecidableEq, Repr

/-- JavaScript falsiness of an optional string: absent or empty. -/
def jsFalsyOptStr : Option String → Bool
  | none => true
  | some s => s == ""

/-- The credential guard `!host || !port || !protocol || !apiKey`. -/
def credsMissing (c : TypesenseConfig) : Bool :=
  jsFalsyOptStr c.host || jsFalsyOptStr c.port || jsFalsyOptStr c.protocol ||
    jsFalsyOptStr c.apiKey

/-- The observable outcome of one tool call: the backend search calls
made, in order, and the text of the returned MCP content block. -/
structure ToolRun where
  calls : List SearchParameters
  text : String
  deriving DecidableEq, Repr

/-- The tool body, parameterized by the exact-phase page size (250 in
`get_vessel_personnel_info`, 50 in `fleetVesselLookup`) and by the
backend as a deterministic oracle from search parameters to response:
validation, credential guard, phase-1 exact search, phase-2 fuzzy
fallback on zero hits, then formatting or the fixed no-result sentence. -/
def runLookup (perPageExact : Nat) (cfg : TypesenseConfig)
    (backend : SearchParameters → SearchResponse)
    (args : GetVesselPersonnelInfoRequest) : ToolRun :=
  let active := activeQueries args
  if active.isEmpty then
    ⟨[], "Error: Please provide at least one of name_query, vessel_query, or email_query."⟩
  else if credsMissing cfg then
    ⟨[], "Error: Typesense credentials not configured."⟩
  else
    let exactParams : SearchParameters := ⟨"*", some (filterQuery active), none, perPageExact⟩
    let r1 := backend exactParams
    if r1.hits.isEmpty then
      let fuzzyParams : SearchParameters :=
        ⟨fuzzyQ active, none, some (String.intercalate "," (fuzzyStringFields active)), 10⟩
      let r2 := backend fuzzyParams
      if r2.hits.isEmpty then
        ⟨[exactParams, fuzzyParams], "No results found for your query."⟩
      else
        ⟨[exactParams, fuzzyParams], formatHits r2.found r2.hits⟩
    else
      ⟨[exactParams], formatHits r1.found r1.hits⟩

/-- Tool `get_vessel_personnel_info` (src/src/tools.ts): exact phase pages 250. -/
def get_vessel_personnel_info : TypesenseConfig →
    (SearchParameters → SearchResponse) → GetVesselPersonnelInfoRequest → ToolRun :=
  runLookup 250

/-- Tool `fleetVesselLookup` (src/unnamed/part_018, part_019): exact phase pages 50. -/
def fleetVesselLookup : TypesenseConfig →
    (SearchParameters → SearchResponse) → GetVesselPersonnelInfoRequest → ToolRun :=
  runLookup 50

/-- A structured view of one phase-1 filter clause: numeric equality,
boolean equality, or backtick-quoted string equality. -/
inductive Clause where
  | numC (field : String) (n : Int)
  | boolC (field : String) (b : Bool)
  | strC (field : String) (q : String)
  deriving DecidableEq, Repr

/-- The field a clause constrains. -/
def Clause.fieldOf : Clause → String
  | Clause.numC f _ => f
  | Clause.boolC f _ => f
  | Clause.strC f _ => f

/-- The source text of a clause, exactly as `buildFilterParts` emits it. -/
def Clause.render : Clause → String
  | Clause.numC f n => f ++ ":=" ++ toString n
  | Clause.boolC f b => f ++ ":=" ++ (if b then "true" else "false")
  | Clause.strC f q => f ++ ":=`" ++ q ++ "`"

/-- Source `buildFilterParts` at the structured level; `buildFilterParts_eq_render`
proves it renders to exactly the source's string list. -/
def buildClauses (t : QType) (q : String) : List Clause :=
  let searchFields := searchFieldsFor t
  let numericParts : List Clause :=
    if t ≠ QType.email then
      match jsParseInt q with
      | some n => numericFields.filterMap
          (fun f => if searchFields.contains f then some (Clause.numC f n) else none)
      | none => []
    else []
  let boolParts : List Clause :=
    if t ≠ QType.email && (jsToLower q == "true" || jsToLower q == "false") then
      boolFields.filterMap
        (fun f => if searchFields.contains f then some (Clause.boolC f (jsToLower q == "true")) else none)
    else []
  let stringParts : List Clause :=
    (stringFieldsFor t).map (fun f => Clause.strC f q)
  numericParts ++ boolParts ++ stringParts

/-- Modelled from the spec: the external Typesense backend's evaluation
of one `field:=value` equality clause on a document (§6 of the spec: the
filter grammar is `field:=value` with exact, one-opaque-token equality;
for an array-valued field, equality with any element). This code is not
in the repository — the backend is an external collaborator. -/
def evalClause (r : Record) : Clause → Bool
  | Clause.numC f n => r.get f == some (JsValue.num n)
  | Clause.boolC f b => r.get f == some (JsValue.bool b)
  | Clause.strC f q =>
      match r.get f with
      | some (JsValue.str s) => s == q
      | some (JsValue.arr xs) => xs.contains q
      | _ => false

/-- The structured groups of the phase-1 filter: one clause group per
active entry whose group is non-empty, mirroring `combinedFilterParts`. -/
def activeClauseGroups (active : List (QType × String)) : List (List Clause) :=
  active.filterMap (fun p =>
    let c := buildClauses p.1 p.2
    if c.isEmpty then none else some c)

/-- Modelled from the spec: evaluation of the whole phase-1 filter, the
`&&` of the parenthesized groups, each group the `||` of its clauses
(§6's grammar `field:=value` combined with `&&`/`||`/parentheses). -/
def evalFilter (r : Record) (active : List (QType × String)) : Bool :=
  (activeClauseGroups active).all (fun g => g.any (evalClause r))

/-- The phase-1 search parameters, as passed to
`client.collections('fleet-vessel-lookup').documents().search`. -/
def exactParams (perPageExact : Nat) (args : GetVesselPersonnelInfoRequest) : SearchParameters :=
  ⟨"*", some (filterQuery (activeQueries args)), none, perPageExact⟩

/-- The phase-2 search parameters. -/
def fuzzyParams (args : GetVesselPersonnelInfoRequest) : SearchParameters :=
  ⟨fuzzyQ (activeQueries args), none,
   some (String.intercalate "," (fuzzyStringFields (activeQueries args))), 10⟩

/-- Number of (possibly overlapping) occurrences of `pat` in `s`. Used to
show that filter-grammar operators inside a query string are
indistinguishable from the operators the builder emits. -/
def countOccs (pat : List Char) : List Char → Nat
  | [] => 0
  | c :: cs => (if pat.isPrefixOf (c :: cs) then 1 else 0) + countOccs pat cs

/-- The fuzzy field scope as claim C5 words it: the deduplicated union of
the full FieldGroup field lists of every active query type, with the
numeric/boolean fields removed. Written from the claim's words, for
comparison with the source's `fuzzyStringFields`. -/
def specFuzzyScope (active : List (QType × String)) : List String :=
  (insertDedup ((active.map (fun p => searchFieldsFor p.1)).flatten)).filter
    (fun f => !(numericFields.contains f) && !(boolFields.contains f))

/-! ### Helper lemmas -/

theorem insertDedup_go_mem (l acc : List String) (f : String) :
    (f ∈ l.foldl (fun acc g => if acc.contains g then acc else acc ++ [g]) acc) ↔
      f ∈ acc ∨ f ∈ l := by
  induction l generalizing acc with
  | nil => simp
  | cons x xs ih =>
    simp only [List.foldl_cons]
    by_cases hx : acc.contains x
    · rw [if_pos hx, ih]
      have hxa : x ∈ acc := by simpa using hx
      constructor
      · rintro (h | h)
        · exact Or.inl h
        · exact Or.inr (List.mem_cons_of_mem _ h)
      · rintro (h | h)
        · exact Or.inl h
        · rcases List.mem_cons.mp h with rfl | h2
          · exact Or.inl hxa
          · exact Or.inr h2
    · rw [if_neg hx, ih]
      simp only [List.mem_append, List.mem_singleton, List.mem_cons]
      tauto

theorem mem_insertDedup (f : String) (l : List String) :
    f ∈ insertDedup l ↔ f ∈ l := by
  unfold insertDedup
  rw [insertDedup_go_mem]
  simp

theorem insertDedup_go_nodup (l acc : List String) (h : acc.Nodup) :
    (l.foldl (fun acc g => if acc.contains g then acc else acc ++ [g]) acc).Nodup := by
  induction l generalizing acc with
  | nil => exact h
  | cons x xs ih =>
    simp only [List.foldl_cons]
    by_cases hx : acc.contains x
    · rw [if_pos hx]
      exact ih acc h
    · rw [if_neg hx]
      refine ih (acc ++ [x]) ?_
      have hxa : x ∉ acc := by simpa using hx
      simp [List.nodup_append, h, hxa]

theorem nodup_insertDedup (l : List String) : (insertDedup l).Nodup :=
  insertDedup_go_nodup l [] List.nodup_nil

theorem strConcat_cons (a : String) (l : List String) :
    strConcat (a :: l) = a ++ strConcat l := rfl

theorem takeWhile_all_append (p : Char → Bool) (l1 l2 : List Char)
    (h1 : ∀ c ∈ l1, p c = true) (h2 : ∀ c, l2.head? = some c → p c = false) :
    (l1 ++ l2).takeWhile p = l1 := by
  induction l1 with
  | nil =>
    cases l2 with
    | nil => rfl
    | cons x xs => simp [List.takeWhile_cons, h2 x rfl]
  | cons x xs ih =>
    simp only [List.cons_append, List.takeWhile_cons, h1 x (List.mem_cons_self x xs),
      if_pos]
    rw [ih (fun c hc => h1 c (List.mem_cons_of_mem _ hc))]

theorem digit_not_ws (c : Char) (h : c.isDigit = true) : jsWhitespace c = false := by
  by_cases h1 : c = ' '
  · subst h1; exact absurd h (by decide)
  by_cases h2 : c = '\t'
  · subst h2; exact absurd h (by decide)
  by_cases h3 : c = '\n'
  · subst h3; exact absurd h (by decide)
  by_cases h4 : c = '\r'
  · subst h4; exact absurd h (by decide)
  simp [jsWhitespace, h1, h2, h3, h4]

theorem digit_ne_minus (c : Char) (h : c.isDigit = true) : c ≠ '-' := by
  intro hc; subst hc; exact absurd h (by decide)

theorem digit_ne_plus (c : Char) (h : c.isDigit = true) : c ≠ '+' := by
  intro hc; subst hc; exact absurd h (by decide)

/-- Lemma: `parseInt` on a string whose leading characters are a non-empty digit
run followed by text that does not start with a digit: the digit prefix
is parsed, the rest ignored. -/
theorem jsParseIntDigitRun (ds : List Char) (rest : String)
    (hne : ds ≠ []) (hds : ∀ c ∈ ds, c.isDigit = true)
    (hrest : ∀ c, rest.data.head? = some c → c.isDigit = false) :
    jsParseInt (String.mk ds ++ rest) = some ((digitsVal ds : Nat) : Int) := by
  cases ds with
  | nil => exact absurd rfl hne
  | cons d ds2 =>
    have hd : d.isDigit = true := hds d (List.mem_cons_self d ds2)
    have hdata : (String.mk (d :: ds2) ++ rest).data = d :: (ds2 ++ rest.data) := by
      simp [String.data_append]
    have hdrop : ((String.mk (d :: ds2) ++ rest).data).dropWhile jsWhitespace =
        d :: (ds2 ++ rest.data) := by
      rw [hdata, List.dropWhile_cons, if_neg (by simp [digit_not_ws d hd])]
    have htake : (d :: (ds2 ++ rest.data)).takeWhile Char.isDigit = d :: ds2 := by
      have := takeWhile_all_append Char.isDigit (d :: ds2) rest.data hds
        (fun c hc => hrest c hc)
      simpa using this
    unfold jsParseInt
    simp only [hdrop, List.head?_cons]
    rw [if_neg (by simpa using digit_ne_minus d hd),
        if_neg (by simpa using digit_ne_plus d hd)]
    unfold parseDigits
    simp only [htake]
    simp [List.isEmpty_iff]

theorem contains_facts :
    "imo" ∈ vesselInfoFields ∧
    "imo" ∉ personNameFields ∧
    "imo" ∉ emailFields ∧
    "isV3" ∈ vesselInfoFields ∧
    "isV3" ∉ personNameFields ∧
    "isV3" ∉ emailFields := by
  refine ⟨?_, ?_, ?_, ?_, ?_, ?_⟩ <;> decide

theorem buildFilterParts_eq_render (t : QType) (q : String) :
    buildFilterParts t q = (buildClauses t q).map Clause.render := by
  obtain ⟨v1, n1, e1, v2, n2, e2⟩ := contains_facts
  cases t <;>
    cases h : jsParseInt q <;>
      cases ht : (jsToLower q == "true") <;>
        cases hf : (jsToLower q == "false") <;>
          first
          | (have hq : jsToLower q = "false" := by simpa using hf
             simp [buildFilterParts, buildClauses, searchFieldsFor, h, ht, hf, hq,
               Clause.render, numericFields, boolFields, Function.comp,
               v1, n1, e1, v2, n2, e2])
          | (have hq : jsToLower q = "true" := by simpa using ht
             simp [buildFilterParts, buildClauses, searchFieldsFor, h, ht, hf, hq,
               Clause.render, numericFields, boolFields, Function.comp,
               v1, n1, e1, v2, n2, e2])
          | (simp [buildFilterParts, buildClauses, searchFieldsFor, h, ht, hf,
               Clause.render, numericFields, boolFields, Function.comp,
               v1, n1, e1, v2, n2, e2])

theorem stringFieldsFor_ne_nil (t : QType) : stringFieldsFor t ≠ [] := by
  cases t <;> decide

theorem buildClauses_ne_nil (t : QType) (q : String) : buildClauses t q ≠ [] := by
  intro h
  have h2 : (stringFieldsFor t).map (fun f => Clause.strC f q) = [] := by
    have := List.append_eq_nil.mp h
    exact this.2
  exact stringFieldsFor_ne_nil t (List.map_eq_nil_iff.mp h2)

theorem buildFilterParts_ne_nil (t : QType) (q : String) : buildFilterParts t q ≠ [] := by
  rw [buildFilterParts_eq_render]
  intro h
  exact buildClauses_ne_nil t q (List.map_eq_nil_iff.mp h)

theorem strC_mem (t : QType) (q f : String) (hf : f ∈ stringFieldsFor t) :
    Clause.strC f q ∈ buildClauses t q := by
  unfold buildClauses
  refine List.mem_append.mpr (Or.inr ?_)
  exact List.mem_map_of_mem _ hf

theorem strPart_mem (t : QType) (q f : String) (hf : f ∈ stringFieldsFor t) :
    (f ++ ":=`" ++ q ++ "`") ∈ buildFilterParts t q := by
  rw [buildFilterParts_eq_render]
  exact List.mem_map.mpr ⟨Clause.strC f q, strC_mem t q f hf, rfl⟩

theorem stringFieldsFor_subset (t : QType) (f : String) (hf : f ∈ stringFieldsFor t) :
    f ∈ searchFieldsFor t := by
  exact (List.mem_filter.mp hf).1

theorem clause_field_mem (t : QType) (q : String) (c : Clause)
    (h : c ∈ buildClauses t q) : c.fieldOf ∈ searchFieldsFor t := by
  unfold buildClauses at h
  rcases List.mem_append.mp h with h1 | hs
  · rcases List.mem_append.mp h1 with hn | hb
    · split at hn
      · split at hn
        · rcases List.mem_filterMap.mp hn with ⟨f, _, hif⟩
          split at hif
          · have hc : c = Clause.numC f _ := (Option.some.inj hif).symm
            subst hc
            simpa [Clause.fieldOf] using (by assumption : (searchFieldsFor t).contains f = true)
          · exact absurd hif (by simp)
        · exact absurd hn (by simp)
      · exact absurd hn (by simp)
    · split at hb
      · rcases List.mem_filterMap.mp hb with ⟨f, _, hif⟩
        split at hif
        · have hc : c = Clause.boolC f _ := (Option.some.inj hif).symm
          subst hc
          simpa [Clause.fieldOf] using (by assumption : (searchFieldsFor t).contains f = true)
        · exact absurd hif (by simp)
      · exact absurd hb (by simp)
  · rcases List.mem_map.mp hs with ⟨f, hf, hc⟩
    subst hc
    exact stringFieldsFor_subset t f hf

theorem activeClauseGroups_eq (active : List (QType × String)) :
    activeClauseGroups active = active.map (fun p => buildClauses p.1 p.2) := by
  unfold activeClauseGroups
  induction active with
  | nil => rfl
  | cons x xs ih =>
    rw [List.filterMap_cons, List.map_cons]
    have h : buildClauses x.1 x.2 ≠ [] := buildClauses_ne_nil x.1 x.2
    simp only [List.isEmpty_iff] at ih ⊢
    simp [h, ih]

theorem combinedFilterParts_eq (active : List (QType × String)) :
    combinedFilterParts active =
      active.map (fun p => "(" ++ String.intercalate " || " (buildFilterParts p.1 p.2) ++ ")") := by
  unfold combinedFilterParts
  induction active with
  | nil => rfl
  | cons x xs ih =>
    rw [List.filterMap_cons, List.map_cons]
    have h : buildFilterParts x.1 x.2 ≠ [] := buildFilterParts_ne_nil x.1 x.2
    simp only [List.isEmpty_iff] at ih ⊢
    simp [h, ih]

theorem recordLines_foldl (doc : List (String × JsValue)) (acc : String) :
    List.foldl
      (fun a p => if p.2.truthy then a ++ displayKey p.1 ++ ": " ++ displayValue p.2 ++ "\n" else a)
      acc doc =
    acc ++ strConcat ((doc.filter (fun p => p.2.truthy)).map
      (fun p => displayKey p.1 ++ ": " ++ displayValue p.2 ++ "\n")) := by
  induction doc generalizing acc with
  | nil => simp [strConcat, String.append_empty]
  | cons x xs ih =>
    cases hx : x.2.truthy with
    | true =>
      simp only [List.foldl_cons, List.filter_cons, hx, if_pos, List.map_cons, strConcat_cons]
      rw [ih]
      simp [String.append_assoc]
    | false =>
      simp only [List.foldl_cons, List.filter_cons, hx]
      rw [if_neg (by simp [hx]), ih]
      simp

theorem recordLines_eq (doc : Record) :
    recordLines doc = strConcat ((doc.filter (fun p => p.2.truthy)).map
      (fun p => displayKey p.1 ++ ": " ++ displayValue p.2 ++ "\n")) := by
  unfold recordLines
  rw [recordLines_foldl]
  exact String.empty_append _

theorem runLookup_eq (pp : Nat) (cfg : TypesenseConfig)
    (backend : SearchParameters → SearchResponse) (args : GetVesselPersonnelInfoRequest)
    (h1 : activeQueries args ≠ []) (h2 : credsMissing cfg = false) :
    runLookup pp cfg backend args =
      if (backend (exactParams pp args)).hits.isEmpty then
        if (backend (fuzzyParams args)).hits.isEmpty then
          ⟨[exactParams pp args, fuzzyParams args], "No results found for your query."⟩
        else
          ⟨[exactParams pp args, fuzzyParams args],
           formatHits (backend (fuzzyParams args)).found (backend (fuzzyParams args)).hits⟩
      else
        ⟨[exactParams pp args],
         formatHits (backend (exactParams pp args)).found (backend (exactParams pp args)).hits⟩ := by
  have h1b : (activeQueries args).isEmpty = false := by
    cases h : activeQueries args with
    | nil => exact absurd h h1
    | cons a l => rfl
  unfold runLookup exactParams fuzzyParams
  simp only [h1b, h2, Bool.false_eq_true, if_false]

theorem activeTruthy_iff (args : GetVesselPersonnelInfoRequest) (t : QType) :
    activeTruthy (activeQueries args) t = true ↔
      ∃ s, (t, s) ∈ activeQueries args ∧ s ≠ "" := by
  rcases args with ⟨n, v, e⟩
  cases n <;> cases v <;> cases e <;> cases t <;>
    simp [activeQueries, activeTruthy, lookupActive, List.find?]

theorem mem_fuzzyQueryByFields (args : GetVesselPersonnelInfoRequest) (f : String) :
    f ∈ fuzzyQueryByFields (activeQueries args) ↔
      ∃ p ∈ activeQueries args, p.2 ≠ "" ∧ f ∈ searchFieldsFor p.1 := by
  unfold fuzzyQueryByFields
  rw [mem_insertDedup]
  constructor
  · intro h
    rcases List.mem_append.mp h with h1 | h3
    · rcases List.mem_append.mp h1 with h1 | h2
      · by_cases hc : activeTruthy (activeQueries args) QType.name = true
        · rw [if_pos hc] at h1
          obtain ⟨s, hs, hne⟩ := (activeTruthy_iff args QType.name).mp hc
          exact ⟨(QType.name, s), hs, hne, h1⟩
        · rw [if_neg hc] at h1
          exact absurd h1 (List.not_mem_nil f)
      · by_cases hc : activeTruthy (activeQueries args) QType.vessel = true
        · rw [if_pos hc] at h2
          obtain ⟨s, hs, hne⟩ := (activeTruthy_iff args QType.vessel).mp hc
          exact ⟨(QType.vessel, s), hs, hne, h2⟩
        · rw [if_neg hc] at h2
          exact absurd h2 (List.not_mem_nil f)
    · by_cases hc : activeTruthy (activeQueries args) QType.email = true
      · rw [if_pos hc] at h3
        obtain ⟨s, hs, hne⟩ := (activeTruthy_iff args QType.email).mp hc
        exact ⟨(QType.email, s), hs, hne, h3⟩
      · rw [if_neg hc] at h3
        exact absurd h3 (List.not_mem_nil f)
  · rintro ⟨⟨t, s⟩, hmem, hne, hf⟩
    have ht : activeTruthy (activeQueries args) t = true :=
      (activeTruthy_iff args t).mpr ⟨s, hmem, hne⟩
    cases t with
    | name =>
      refine List.mem_append.mpr (Or.inl (List.mem_append.mpr (Or.inl ?_)))
      rw [if_pos ht]
      exact hf
    | vessel =>
      refine List.mem_append.mpr (Or.inl (List.mem_append.mpr (Or.inr ?_)))
      rw [if_pos ht]
      exact hf
    | email =>
      refine List.mem_append.mpr (Or.inr ?_)
      rw [if_pos ht]
      exact hf

theorem mem_fuzzyStringFields (args : GetVesselPersonnelInfoRequest) (f : String) :
    f ∈ fuzzyStringFields (activeQueries args) ↔
      ((∃ p ∈ activeQueries args, p.2 ≠ "" ∧ f ∈ searchFieldsFor p.1) ∧
        f ∉ numericFields ∧ f ∉ boolFields) := by
  unfold fuzzyStringFields
  rw [List.mem_filter, mem_fuzzyQueryByFields]
  simp

/-! ### Claim theorems -/

/-- C1 (counterexample): the claim is false on the code — an
empty-string query slot is NOT dropped: `value !== undefined && value
!== null` keeps it, it produces one `field:=\x60\x60` clause per string
field of its group, and `{name_query: "", vessel_query: "Ever Given"}`
yields a different phase-1 filter (and a different run) than
`{vessel_query: "Ever Given"}` alone; a whitespace-only query likewise
yields clauses. -/
theorem c1_empty_slot_counterexample :
    filterQuery (activeQueries ⟨some "", some "Ever Given", none⟩) ≠
      filterQuery (activeQueries ⟨none, some "Ever Given", none⟩) ∧
    buildFilterParts QType.name "" ≠ [] ∧
    buildFilterParts QType.name " " ≠ [] ∧
    get_vessel_personnel_info ⟨some "h", some "1", some "http", some "k"⟩
        (fun _ => ⟨0, []⟩) ⟨some "", some "Ever Given", none⟩ ≠
      get_vessel_personnel_info ⟨some "h", some "1", some "http", some "k"⟩
        (fun _ => ⟨0, []⟩) ⟨none, some "Ever Given", none⟩ := by
  refine ⟨by decide, by decide, by decide, by decide⟩

/-- C1 (amended): only undefined/null slots are dropped before
processing; an empty-string slot is kept — it counts toward the
at-least-one-slot validation and contributes one parenthesized group of
string-equality clauses with an empty backtick literal to the phase-1
filter, so `{name_query: "", vessel_query: v}` never produces the same
filter expression as `{vessel_query: v}` alone. -/
theorem c1_empty_slot_amended :
    (∀ v : String, activeQueries ⟨some "", some v, none⟩ =
        [(QType.name, ""), (QType.vessel, v)]) ∧
    buildFilterParts QType.name "" =
      (stringFieldsFor QType.name).map (fun f => f ++ ":=``") ∧
    (∀ v : String, combinedFilterParts (activeQueries ⟨some "", some v, none⟩) =
        ("(" ++ String.intercalate " || " (buildFilterParts QType.name "") ++ ")") ::
          combinedFilterParts (activeQueries ⟨none, some v, none⟩)) ∧
    filterQuery (activeQueries ⟨some "", some "Ever Given", none⟩) ≠
      filterQuery (activeQueries ⟨none, some "Ever Given", none⟩) := by
  refine ⟨fun v => rfl, by decide, fun v => ?_, by decide⟩
  rw [combinedFilterParts_eq, combinedFilterParts_eq]
  rfl

/-- C2: the phase-1 filter is the ` && `-join of one parenthesized group
per active query type, each group the ` || `-join of that type's clauses;
under the spec-modelled backend evaluation a record matches iff for every
supplied query type at least one of its clauses is satisfied, every
clause constrains a field of that type's FieldGroup, and a single
vessel query is matched by a record whose `vesselName` or `fleet` equals
the token. -/
theorem c2_conjunction_disjunction (args : GetVesselPersonnelInfoRequest) (r : Record) :
    filterQuery (activeQueries args) =
      String.intercalate " && " ((activeQueries args).map
        (fun p => "(" ++ String.intercalate " || "
          ((buildClauses p.1 p.2).map Clause.render) ++ ")")) ∧
    (evalFilter r (activeQueries args) = true ↔
      ∀ p ∈ activeQueries args, ∃ c ∈ buildClauses p.1 p.2, evalClause r c = true) ∧
    (∀ p ∈ activeQueries args, ∀ c ∈ buildClauses p.1 p.2,
      c.fieldOf ∈ searchFieldsFor p.1) ∧
    (∀ q : String,
      (r.get "vesselName" = some (JsValue.str q) ∨ r.get "fleet" = some (JsValue.str q)) →
      evalFilter r (activeQueries ⟨none, some q, none⟩) = true) := by
  refine ⟨?_, ?_, ?_, ?_⟩
  · unfold filterQuery
    rw [combinedFilterParts_eq]
    simp only [buildFilterParts_eq_render]
  · unfold evalFilter
    rw [activeClauseGroups_eq]
    simp only [List.all_eq_true, List.any_eq_true, List.mem_map, Prod.exists,
      forall_exists_index, and_imp, Prod.forall]
    constructor
    · intro h a b hab
      exact h (buildClauses a b) a b hab rfl
    · intro h x a b hab hx
      rw [← hx]
      exact h a b hab
  · intro p hp c hc
    exact clause_field_mem p.1 p.2 c hc
  · intro q hq
    have h1 : activeQueries ⟨none, some q, none⟩ = [(QType.vessel, q)] := rfl
    unfold evalFilter
    rw [h1, activeClauseGroups_eq]
    simp only [List.map_cons, List.map_nil, List.all_cons, List.all_nil,
      Bool.and_true]
    rw [List.any_eq_true]
    rcases hq with hv | hf2
    · refine ⟨Clause.strC "vesselName" q, strC_mem QType.vessel q "vesselName" (by decide), ?_⟩
      simp [evalClause, hv]
    · refine ⟨Clause.strC "fleet" q, strC_mem QType.vessel q "fleet" (by decide), ?_⟩
      simp [evalClause, hf2]

/-- C2 witness: a record whose `vesselName` is the vessel token matches
the phase-1 filter of a single vessel query. -/
theorem c2_witness :
    evalFilter [("vesselName", JsValue.str "Ever Given")]
      (activeQueries ⟨none, some "Ever Given", none⟩) = true :=
  (c2_conjunction_disjunction ⟨none, some "Ever Given", none⟩
      [("vesselName", JsValue.str "Ever Given")]).2.2.2 "Ever Given" (Or.inl rfl)

/-- C3: the resolution engine is a two-state machine — the fuzzy call is
issued iff the exact call returned zero hits; a non-empty exact hit set
is terminal with the formatted exact hits; two empty phases mean exactly
two backend calls and the exact sentence "No results found for your
query.". -/
theorem c3_two_phase_state_machine (cfg : TypesenseConfig)
    (backend : SearchParameters → SearchResponse) (args : GetVesselPersonnelInfoRequest)
    (h1 : activeQueries args ≠ []) (h2 : credsMissing cfg = false) :
    ((fuzzyParams args ∈ (get_vessel_personnel_info cfg backend args).calls) ↔
      (backend (exactParams 250 args)).hits = []) ∧
    ((backend (exactParams 250 args)).hits ≠ [] →
      get_vessel_personnel_info cfg backend args =
        ⟨[exactParams 250 args],
         formatHits (backend (exactParams 250 args)).found
           (backend (exactParams 250 args)).hits⟩) ∧
    ((backend (exactParams 250 args)).hits = [] →
      (get_vessel_personnel_info cfg backend args).calls =
        [exactParams 250 args, fuzzyParams args]) ∧
    ((backend (exactParams 250 args)).hits = [] →
      (backend (fuzzyParams args)).hits = [] →
      get_vessel_personnel_info cfg backend args =
        ⟨[exactParams 250 args, fuzzyParams args], "No results found for your query."⟩) := by
  have hne : fuzzyParams args ≠ exactParams 250 args := by
    unfold fuzzyParams exactParams
    intro h
    exact Option.noConfusion (congrArg SearchParameters.filter_by h)
  have hrun := runLookup_eq 250 cfg backend args h1 h2
  unfold get_vessel_personnel_info
  rw [hrun]
  by_cases he : (backend (exactParams 250 args)).hits = []
  · have heb : (backend (exactParams 250 args)).hits.isEmpty = true := by
      simp [List.isEmpty_iff, he]
    rw [if_pos heb]
    by_cases hf2 : (backend (fuzzyParams args)).hits = []
    · have hfb : (backend (fuzzyParams args)).hits.isEmpty = true := by
        simp [List.isEmpty_iff, hf2]
      rw [if_pos hfb]
      refine ⟨by simp [he], fun hc => absurd he hc, fun _ => rfl, fun _ _ => rfl⟩
    · have hfb : (backend (fuzzyParams args)).hits.isEmpty = false := by
        simp [List.isEmpty_iff, hf2]
      rw [hfb]
      simp only [Bool.false_eq_true, if_false]
      refine ⟨by simp [he], fun hc => absurd he hc, fun _ => by simp,
        fun _ hc => absurd hc hf2⟩
  · have heb : (backend (exactParams 250 args)).hits.isEmpty = false := by
      simp [List.isEmpty_iff, he]
    rw [heb]
    simp only [Bool.false_eq_true, if_false]
    refine ⟨?_, fun _ => by simp, fun hc => absurd hc he, fun hc _ => absurd hc he⟩
    simp [he, hne]

/-- C3 witness: with a backend that returns no hits at all, the run makes
the exact call then the fuzzy call and returns the fixed sentence. -/
theorem c3_witness :
    get_vessel_personnel_info ⟨some "h", some "8108", some "http", some "k"⟩
        (fun _ => ⟨0, []⟩) ⟨none, some "Ever Given", none⟩ =
      ⟨[exactParams 250 ⟨none, some "Ever Given", none⟩,
        fuzzyParams ⟨none, some "Ever Given", none⟩],
       "No results found for your query."⟩ :=
  (c3_two_phase_state_machine ⟨some "h", some "8108", some "http", some "k"⟩
      (fun _ => ⟨0, []⟩) ⟨none, some "Ever Given", none⟩
      (by decide) (by decide)).2.2.2 rfl rfl

/-- C4: an integer-parsing non-boolean vessel query produces exactly the
numeric `imo:=n` clause followed by the string clauses of the non-numeric,
non-boolean vessel fields (so no string-equality clause against `imo`);
`isV3:=true` is emitted for the vessel group only — a name or email query
of "true" yields no `isV3` clause. -/
theorem c4_numeric_and_bool_coercion :
    (∀ q : String, ∀ n : Int, jsParseInt q = some n →
      jsToLower q ≠ "true" → jsToLower q ≠ "false" →
      buildFilterParts QType.vessel q =
        ("imo:=" ++ toString n) ::
          (stringFieldsFor QType.vessel).map (fun f => f ++ ":=`" ++ q ++ "`")) ∧
    "imo" ∉ stringFieldsFor QType.vessel ∧
    "isV3" ∉ stringFieldsFor QType.vessel ∧
    ("imo:=9876543" ∈ buildFilterParts QType.vessel "9876543") ∧
    ("imo:=`9876543`" ∉ buildFilterParts QType.vessel "9876543") ∧
    ("isV3:=true" ∈ buildFilterParts QType.vessel "true") ∧
    (∀ c ∈ buildFilterParts QType.name "true", "isV3".data.isPrefixOf c.data = false) ∧
    (∀ c ∈ buildFilterParts QType.email "true", "isV3".data.isPrefixOf c.data = false) := by
  refine ⟨?_, by decide, by decide, by decide, by decide, by decide, by decide, by decide⟩
  intro q n h ht hf
  have hbt : (jsToLower q == "true") = false := by simpa using ht
  have hbf : (jsToLower q == "false") = false := by simpa using hf
  have hc : vesselInfoFields.contains "imo" = true := by decide
  have hm : "imo" ∈ vesselInfoFields := by decide
  simp [buildFilterParts, h, hbt, hbf, searchFieldsFor, numericFields, boolFields, hc, hm]

/-- C4 witness: the concrete IMO query of the claim. -/
theorem c4_witness :
    buildFilterParts QType.vessel "9876543" =
      ("imo:=" ++ toString (9876543 : Int)) ::
        (stringFieldsFor QType.vessel).map (fun f => f ++ ":=`" ++ "9876543" ++ "`") :=
  c4_numeric_and_bool_coercion.1 "9876543" 9876543 (by decide) (by decide) (by decide)

/-- C5 (counterexample): the claim is false on the code — with an active
empty-string name slot the fuzzy phase runs (its calls are recorded) but
its searchable scope omits the name FieldGroup entirely, because the
source tests JavaScript truthiness of each slot, not activeness; the
claim's union (`specFuzzyScope`) contains `technicalSuperintendent`, the
code's scope does not. -/
theorem c5_counterexample :
    ((get_vessel_personnel_info ⟨some "h", some "1", some "http", some "k"⟩
        (fun _ => ⟨0, []⟩) ⟨some "", some "X", none⟩).calls.map
          SearchParameters.query_by) =
      [none, some "vesselName,groupName,shippalmDoc,class,doc,fleet"] ∧
    "technicalSuperintendent" ∈ specFuzzyScope (activeQueries ⟨some "", some "X", none⟩) ∧
    "technicalSuperintendent" ∉ fuzzyStringFields (activeQueries ⟨some "", some "X", none⟩) := by
  refine ⟨by decide, by decide, by decide⟩

/-- C5 (amended): when the fuzzy phase runs, its free-text query is the
space-join of all active query strings and its page size is 10, but its
searchable scope is the deduplicated union of the FieldGroup lists of
every active query type WHOSE QUERY STRING IS NON-EMPTY (JavaScript
truthiness), with `imo` and `isV3` removed. -/
theorem c5_fuzzy_request_amended (cfg : TypesenseConfig)
    (backend : SearchParameters → SearchResponse) (args : GetVesselPersonnelInfoRequest)
    (h1 : activeQueries args ≠ []) (h2 : credsMissing cfg = false)
    (h3 : (backend (exactParams 250 args)).hits = []) :
    fuzzyParams args ∈ (get_vessel_personnel_info cfg backend args).calls ∧
    (fuzzyParams args).q = String.intercalate " " ((activeQueries args).map Prod.snd) ∧
    (fuzzyParams args).per_page = 10 ∧
    (fuzzyParams args).query_by =
      some (String.intercalate "," (fuzzyStringFields (activeQueries args))) ∧
    (∀ f : String, f ∈ fuzzyStringFields (activeQueries args) ↔
      ((∃ p ∈ activeQueries args, p.2 ≠ "" ∧ f ∈ searchFieldsFor p.1) ∧
        f ∉ numericFields ∧ f ∉ boolFields)) ∧
    (fuzzyStringFields (activeQueries args)).Nodup := by
  refine ⟨?_, rfl, rfl, rfl, mem_fuzzyStringFields args, ?_⟩
  · have heb : (backend (exactParams 250 args)).hits.isEmpty = true := by
      simp [List.isEmpty_iff, h3]
    unfold get_vessel_personnel_info
    rw [runLookup_eq 250 cfg backend args h1 h2, if_pos heb]
    by_cases hf2 : (backend (fuzzyParams args)).hits.isEmpty = true
    · rw [if_pos hf2]
      simp
    · rw [if_neg hf2]
      simp
  · exact List.Nodup.filter _ (nodup_insertDedup _)

/-- C5 witness: a single-vessel no-hit run issues the fuzzy call. -/
theorem c5_witness :
    fuzzyParams ⟨none, some "EverGiven", none⟩ ∈
      (get_vessel_personnel_info ⟨some "h", some "1", some "http", some "k"⟩
        (fun _ => ⟨0, []⟩) ⟨none, some "EverGiven", none⟩).calls :=
  (c5_fuzzy_request_amended ⟨some "h", some "1", some "http", some "k"⟩
      (fun _ => ⟨0, []⟩) ⟨none, some "EverGiven", none⟩
      (by decide) (by decide) rfl).1

/-- C6 (counterexample): the claim is false as universally stated — a
call with no query slot and absent credentials returns the validation
message, not the configuration-error message (validation precedes the
credential guard). -/
theorem c6_counterexample :
    credsMissing ⟨none, none, none, none⟩ = true ∧
    (get_vessel_personnel_info ⟨none, none, none, none⟩ (fun _ => ⟨0, []⟩)
        ⟨none, none, none⟩).calls = [] ∧
    (get_vessel_personnel_info ⟨none, none, none, none⟩ (fun _ => ⟨0, []⟩)
        ⟨none, none, none⟩).text =
      "Error: Please provide at least one of name_query, vessel_query, or email_query." ∧
    (get_vessel_personnel_info ⟨none, none, none, none⟩ (fun _ => ⟨0, []⟩)
        ⟨none, none, none⟩).text ≠ "Error: Typesense credentials not configured." := by
  refine ⟨rfl, rfl, rfl, by decide⟩

/-- C6 (amended): for every call that passes validation (at least one
slot provided) and whose credentials are absent, the tool returns the
configuration-error text as a successful tool result and makes zero
backend calls. -/
theorem c6_config_error_amended (cfg : TypesenseConfig)
    (backend : SearchParameters → SearchResponse) (args : GetVesselPersonnelInfoRequest)
    (h1 : activeQueries args ≠ []) (h2 : credsMissing cfg = true) :
    get_vessel_personnel_info cfg backend args =
      ⟨[], "Error: Typesense credentials not configured."⟩ := by
  have h1b : (activeQueries args).isEmpty = false := by
    cases h : activeQueries args with
    | nil => exact absurd h h1
    | cons a l => rfl
  unfold get_vessel_personnel_info runLookup
  simp [h1b, h2]

/-- C6 witness: missing host with a provided vessel query. -/
theorem c6_witness :
    get_vessel_personnel_info ⟨none, some "1", some "http", some "k"⟩
        (fun _ => ⟨0, []⟩) ⟨none, some "X", none⟩ =
      ⟨[], "Error: Typesense credentials not configured."⟩ :=
  c6_config_error_amended ⟨none, some "1", some "http", some "k"⟩
    (fun _ => ⟨0, []⟩) ⟨none, some "X", none⟩ (by decide) (by decide)

/-- C7: the formatter prints one labeled line per truthy field of each
record (label = space-split, capitalized identifier), a falsy
(empty/null) field prints no line, array values join with a comma and a
space, and the header states total matches versus records shown. -/
theorem c7_formatter_report :
    (∀ i : Nat, ∀ doc : Record,
      formatRecord i doc = "--- Result " ++ toString (i + 1) ++ " ---\n" ++
        strConcat ((doc.filter (fun p => p.2.truthy)).map
          (fun p => displayKey p.1 ++ ": " ++ displayValue p.2 ++ "\n")) ++ "\n") ∧
    (∀ found : Nat, ∀ hits : List Record,
      formatHits found hits = "Found " ++ toString found ++ " results. Showing top " ++
        toString hits.length ++ ":\n\n" ++ strConcat (hits.mapIdx formatRecord)) ∧
    displayKey "technicalSuperintendentEmailId" = "Technical Superintendent Email Id" ∧
    displayKey "owner" = "Owner" ∧
    displayValue (JsValue.arr ["A Corp", "B Corp"]) = "A Corp, B Corp" ∧
    recordLines [("owner", JsValue.arr ["A Corp", "B Corp"])] = "Owner: A Corp, B Corp\n" ∧
    (∀ pre post : Record, ∀ k : String,
      recordLines (pre ++ (k, JsValue.str "") :: post) = recordLines (pre ++ post) ∧
      recordLines (pre ++ (k, JsValue.nullv) :: post) = recordLines (pre ++ post)) := by
  refine ⟨?_, fun found hits => rfl, by decide, by decide, by decide, by decide, ?_⟩
  · intro i doc
    unfold formatRecord
    rw [recordLines_eq]
  · intro pre post k
    constructor <;>
      (rw [recordLines_eq, recordLines_eq]
       simp [List.filter_append, List.filter_cons, JsValue.truthy])

/-- C8: the formatter omits every JavaScript-falsy field value, including
the boolean false and the number 0, so the report of a record carrying
them is identical to the report of the record without them. -/
theorem c8_falsy_fields_indistinguishable :
    (∀ pre post : Record, ∀ k : String,
      recordLines (pre ++ (k, JsValue.bool false) :: post) = recordLines (pre ++ post)) ∧
    (∀ pre post : Record, ∀ k : String,
      recordLines (pre ++ (k, JsValue.num 0) :: post) = recordLines (pre ++ post)) ∧
    JsValue.truthy (JsValue.bool false) = false ∧
    JsValue.truthy (JsValue.num 0) = false ∧
    (∀ i : Nat, ∀ pre post : Record, ∀ k : String,
      formatRecord i (pre ++ (k, JsValue.bool false) :: post) =
        formatRecord i (pre ++ post)) := by
  refine ⟨?_, ?_, rfl, by decide, ?_⟩
  · intro pre post k
    rw [recordLines_eq, recordLines_eq]
    simp [List.filter_append, List.filter_cons, JsValue.truthy]
  · intro pre post k
    rw [recordLines_eq, recordLines_eq]
    simp [List.filter_append, List.filter_cons, JsValue.truthy]
  · intro i pre post k
    unfold formatRecord
    rw [recordLines_eq, recordLines_eq]
    simp [List.filter_append, List.filter_cons, JsValue.truthy]

/-- C9 (counterexample): the claim is false for a name query — the
numeric prefix of "76 Main Street" parses, but the name FieldGroup has no
numeric field, so the filter gains NO `imo:=76` clause: the whole phase-1
filter of a lone name query is exactly its string clauses. -/
theorem c9_prefix_counterexample :
    jsParseInt "76 Main Street" = some 76 ∧
    "imo:=76" ∉ buildFilterParts QType.name "76 Main Street" ∧
    filterQuery (activeQueries ⟨some "76 Main Street", none, none⟩) =
      "(" ++ String.intercalate " || "
        ((stringFieldsFor QType.name).map (fun f => f ++ ":=`76 Main Street`")) ++ ")" := by
  refine ⟨by decide, by decide, by decide⟩

/-- C9 (amended): integer detection accepts digit prefixes (not only
whole-string integers), and a query type whose FieldGroup contains `imo`
— the vessel type — then gains the numeric clause from the parsed prefix
alongside the string clauses on the full query string; types without a
numeric field gain no numeric clause. -/
theorem c9_numeric_prefix_amended :
    (∀ ds : List Char, ∀ rest : String, ds ≠ [] →
      (∀ c ∈ ds, c.isDigit = true) →
      (∀ c : Char, rest.data.head? = some c → c.isDigit = false) →
      jsParseInt (String.mk ds ++ rest) = some ((digitsVal ds : Nat) : Int)) ∧
    (∀ q : String, ∀ n : Int, jsParseInt q = some n →
      ("imo:=" ++ toString n) ∈ buildFilterParts QType.vessel q ∧
      ∀ f ∈ stringFieldsFor QType.vessel,
        (f ++ ":=`" ++ q ++ "`") ∈ buildFilterParts QType.vessel q) ∧
    ("imo:=76" ∈ buildFilterParts QType.vessel "76 Main Street") ∧
    ("imo:=76" ∉ buildFilterParts QType.name "76 Main Street") ∧
    ("vesselName:=`76 Main Street`" ∈ buildFilterParts QType.vessel "76 Main Street") := by
  refine ⟨jsParseIntDigitRun, ?_, by decide, by decide, by decide⟩
  intro q n h
  refine ⟨?_, fun f hf => strPart_mem QType.vessel q f hf⟩
  unfold buildFilterParts
  refine List.mem_append.mpr (Or.inl (List.mem_append.mpr (Or.inl ?_)))
  have hm : "imo" ∈ vesselInfoFields := by decide
  simp [h, numericFields, searchFieldsFor, hm]

/-- C9 witness: the claim's own example input. -/
theorem c9_witness :
    jsParseInt (String.mk ['7', '6'] ++ " Main Street") =
      some ((digitsVal ['7', '6'] : Nat) : Int) :=
  c9_numeric_prefix_amended.1 ['7', '6'] " Main Street" (by decide) (by decide) (by decide)

/-- C10: every string clause embeds the raw query between backticks with
no escaping, for every query type, query string and string field of the
group; consequently, for a query containing the filter operator ` || `
the rendered group has more ` || ` occurrences than clause boundaries
(11 vs 5 for six clauses), and a query containing a backtick changes the
backtick count from the 12 of six quoted literals to 18, so such input
merges with the filter grammar rather than being matched literally. -/
theorem c10_verbatim_no_escaping :
    (∀ t : QType, ∀ q : String, ∀ f ∈ stringFieldsFor t,
      (f ++ ":=`" ++ q ++ "`") ∈ buildFilterParts t q) ∧
    (buildFilterParts QType.vessel "a || b").length = 6 ∧
    countOccs " || ".data (filterQuery (activeQueries ⟨none, some "a || b", none⟩)).data = 11 ∧
    countOccs "`".data (filterQuery (activeQueries ⟨none, some "a`b", none⟩)).data = 18 ∧
    countOccs "`".data (filterQuery (activeQueries ⟨none, some "ab", none⟩)).data = 12 := by
  refine ⟨?_, by decide, by decide, by decide, by decide⟩
  intro t q f hf
  exact strPart_mem t q f hf

/-- C10 witness: a backtick-and-operator query is embedded verbatim in
the `vesselName` clause. -/
theorem c10_witness :
    ("vesselName" ++ ":=`" ++ "x` || y" ++ "`") ∈
      buildFilterParts QType.vessel "x` || y" :=
  c10_verbatim_no_escaping.1 QType.vessel "x` || y" "vesselName" (by decide)

end MCPUtil
